import Mathlib

/-!
Verification of the firebox file-synchronization engine.

The development shallowly embeds the Python sources:
* `src/client/server/chunker.py` (Chunker),
* `src/backend/firebox/files_service/utils/chunks.py` (fingerprint aggregation,
  chunk confirmation helpers),
* `src/backend/dropbox/files_service/api.py` (HTTP handlers),
* `src/backend/dropbox/files_service/schema.py` (request validation),
* `src/backend/dropbox/files_service/utils/files.py` and `utils/s3.py`
  (file creation, cleanup and multipart completion),
* `src/client/server/sync.py` (client-side sync engine).

Byte strings are modelled as `List Nat` (each entry a byte value), database
tables as lists of records, timestamps as natural numbers, and the object
store as explicit state.  `hashlib.sha256(...).hexdigest()` is embedded as an
executable SHA-256 over byte lists; Python `str.encode()` is modelled for the
ASCII strings (hex digests) that the code feeds to it.
-/

namespace Firebox

/-! ### SHA-256 (model of Python `hashlib.sha256(...).hexdigest()`) -/

/-- 2^32, the word modulus of SHA-256. -/
def w32 : Nat := 4294967296

/-- Right rotation of a 32-bit word by `n` bits. -/
def rotr32 (n x : Nat) : Nat := ((x >>> n) ||| (x <<< (32 - n))) % w32

/-- Logical right shift. -/
def shiftr32 (n x : Nat) : Nat := x >>> n

/-- SHA-256 choice function. -/
def ch32 (x y z : Nat) : Nat := (x &&& y) ^^^ ((x ^^^ 4294967295) &&& z)

/-- SHA-256 majority function. -/
def maj32 (x y z : Nat) : Nat := (x &&& y) ^^^ (x &&& z) ^^^ (y &&& z)

/-- SHA-256 big sigma 0. -/
def bigSigma0 (x : Nat) : Nat := rotr32 2 x ^^^ rotr32 13 x ^^^ rotr32 22 x

/-- SHA-256 big sigma 1. -/
def bigSigma1 (x : Nat) : Nat := rotr32 6 x ^^^ rotr32 11 x ^^^ rotr32 25 x

/-- SHA-256 small sigma 0. -/
def smallSigma0 (x : Nat) : Nat := rotr32 7 x ^^^ rotr32 18 x ^^^ shiftr32 3 x

/-- SHA-256 small sigma 1. -/
def smallSigma1 (x : Nat) : Nat := rotr32 17 x ^^^ rotr32 19 x ^^^ shiftr32 10 x

/-- The 64 SHA-256 round constants. -/
def sha256K : List Nat :=
  [1116352408, 1899447441, 3049323471, 3921009573,
   961987163, 1508970993, 2453635748, 2870763221,
   3624381080, 310598401, 607225278, 1426881987,
   1925078388, 2162078206, 2614888103, 3248222580,
   3835390401, 4022224774, 264347078, 604807628,
   770255983, 1249150122, 1555081692, 1996064986,
   2554220882, 2821834349, 2952996808, 3210313671,
   3336571891, 3584528711, 113926993, 338241895,
   666307205, 773529912, 1294757372, 1396182291,
   1695183700, 1986661051, 2177026350, 2456956037,
   2730485921, 2820302411, 3259730800, 3345764771,
   3516065817, 3600352804, 4094571909, 275423344,
   430227734, 506948616, 659060556, 883997877,
   958139571, 1322822218, 1537002063, 1747873779,
   1955562222, 2024104815, 2227730452, 2361852424,
   2428436474, 2756734187, 3204031479, 3329325298]

/-- Big-endian 8-byte encoding of the message bit length. -/
def lenBytes (bits : Nat) : List Nat :=
  (List.range 8).map (fun i => (bits >>> (8 * (7 - i))) &&& 255)

/-- SHA-256 padding: append `0x80`, zeros to 56 mod 64, then the bit length. -/
def padMessage (msg : List Nat) : List Nat :=
  let len := msg.length
  let zeros := (119 - len % 64) % 64
  msg ++ [128] ++ List.replicate zeros 0 ++ lenBytes (len * 8)

/-- Collect bytes into big-endian 32-bit words. -/
def bytesToWords : List Nat → List Nat
  | b0 :: b1 :: b2 :: b3 :: rest =>
      ((b0 <<< 24) + (b1 <<< 16) + (b2 <<< 8) + b3) :: bytesToWords rest
  | _ => []

/-- Split a word list into blocks of 16 words. -/
def wordBlocks (ws : List Nat) : List (List Nat) :=
  if h : ws = [] then []
  else ws.take 16 :: wordBlocks (ws.drop 16)
termination_by ws.length
decreasing_by
  simp only [List.length_drop]
  exact Nat.sub_lt (List.length_pos.2 h) (by decide)

/-- Append the next word of the SHA-256 message schedule. -/
def scheduleStep (w : List Nat) : List Nat :=
  let n := w.length
  w ++ [(smallSigma1 (w.getD (n - 2) 0) + w.getD (n - 7) 0 +
         smallSigma0 (w.getD (n - 15) 0) + w.getD (n - 16) 0) % w32]

/-- Extend a 16-word block to the 64-word message schedule. -/
def schedule (block : List Nat) : List Nat :=
  (List.range 48).foldl (fun w _ => scheduleStep w) block

/-- The eight 32-bit working variables of SHA-256. -/
structure Hash8 where
  a : Nat
  b : Nat
  c : Nat
  d : Nat
  e : Nat
  f : Nat
  g : Nat
  h : Nat
deriving Repr, DecidableEq

/-- One SHA-256 compression round. -/
def compressWord (s : Hash8) (kw : Nat × Nat) : Hash8 :=
  let t1 := (s.h + bigSigma1 s.e + ch32 s.e s.f s.g + kw.1 + kw.2) % w32
  let t2 := (bigSigma0 s.a + maj32 s.a s.b s.c) % w32
  ⟨(t1 + t2) % w32, s.a, s.b, s.c, (s.d + t1) % w32, s.e, s.f, s.g⟩

/-- Compress one 16-word block into the running hash. -/
def compressBlock (hv : Hash8) (block : List Nat) : Hash8 :=
  let ws := schedule block
  let s := (sha256K.zip ws).foldl compressWord hv
  ⟨(hv.a + s.a) % w32, (hv.b + s.b) % w32, (hv.c + s.c) % w32,
   (hv.d + s.d) % w32, (hv.e + s.e) % w32, (hv.f + s.f) % w32,
   (hv.g + s.g) % w32, (hv.h + s.h) % w32⟩

/-- SHA-256 initial hash value. -/
def sha256Init : Hash8 :=
  ⟨1779033703, 3144134277, 1013904242, 2773480762, 1359893119, 2600822924, 528734635, 1541459225⟩

/-- SHA-256 of a byte list, as the eight final words. -/
def sha256words (msg : List Nat) : Hash8 :=
  (wordBlocks (bytesToWords (padMessage msg))).foldl compressBlock sha256Init

/-- Hexadecimal digit characters. -/
def hexChar (n : Nat) : Char := "0123456789abcdef".toList.getD n (Char.ofNat 48)

/-- Lower-case hexadecimal rendering of a 32-bit word. -/
def wordHex (x : Nat) : String :=
  String.mk ((List.range 8).map (fun i => hexChar ((x >>> (4 * (7 - i))) &&& 15)))

/-- Hex digest of a byte list (Python `hashlib.sha256(bytes).hexdigest()`). -/
def sha256hexBytes (msg : List Nat) : String :=
  let s := sha256words msg
  wordHex s.a ++ wordHex s.b ++ wordHex s.c ++ wordHex s.d ++
  wordHex s.e ++ wordHex s.f ++ wordHex s.g ++ wordHex s.h

/-- Python `str.encode()` for the ASCII strings (hex digests) used here. -/
def strBytes (s : String) : List Nat := s.toList.map Char.toNat

/-- Hex digest of a string (`hashlib.sha256(s.encode()).hexdigest()`). -/
def sha256hex (s : String) : String := sha256hexBytes (strBytes s)

/-! ### Chunker (`src/client/server/chunker.py`)

`Chunker.split_file` reads `chunk_size` bytes at a time until a read returns
no data, yielding each chunk together with its SHA-256 fingerprint.  A read of
`chunk_size = 0` bytes returns no data immediately, so the loop also stops at
once in that case. -/

/-- `Chunker.split_file`: split a byte list into chunks with fingerprints. -/
def split_file (chunkSize : Nat) (data : List Nat) : List (List Nat × String) :=
  if h : chunkSize = 0 ∨ data = [] then []
  else (data.take chunkSize, sha256hexBytes (data.take chunkSize)) ::
       split_file chunkSize (data.drop chunkSize)
termination_by data.length
decreasing_by
  push_neg at h
  simp only [List.length_drop]
  exact Nat.sub_lt (List.length_pos.2 h.2) (Nat.pos_of_ne_zero h.1)

/-- `Chunker.merge_chunks`: the merged output file is the concatenation of the
chunks in the given order. -/
def merge_chunks (chunks : List (List Nat)) : List Nat := chunks.flatten

theorem split_file_length (C : Nat) (hC : 0 < C) (data : List Nat) :
    (split_file C data).length = (data.length + C - 1) / C := by
  induction data using split_file.induct C with
  | case1 data h =>
    rcases h with h | h
    · omega
    · subst h
      rw [split_file, dif_pos (Or.inr rfl)]
      simp only [List.length_nil]
      exact (Nat.div_eq_of_lt (by omega)).symm
  | case2 data h ih =>
    push_neg at h
    rw [split_file, dif_neg (by push_neg; exact h)]
    simp only [List.length_cons, List.length_drop] at ih ⊢
    rw [ih]
    have hn : 0 < data.length := List.length_pos.2 h.2
    rcases le_or_lt data.length C with hle | hlt
    · have h0 : data.length - C = 0 := by omega
      rw [h0, Nat.div_eq_of_lt (show 0 + C - 1 < C by omega)]
      symm
      exact Nat.div_eq_of_lt_le (by omega) (by omega)
    · have h1 : data.length - C + C - 1 = data.length - 1 := by omega
      have h2 : data.length + C - 1 = data.length - 1 + C := by omega
      rw [h1, h2, Nat.add_div_right _ hC]

theorem split_file_flatten (C : Nat) (hC : 0 < C) (data : List Nat) :
    merge_chunks ((split_file C data).map Prod.fst) = data := by
  induction data using split_file.induct C with
  | case1 data h =>
    rcases h with h | h
    · omega
    · subst h
      rw [split_file, dif_pos (Or.inr rfl)]
      rfl
  | case2 data h ih =>
    rw [split_file, dif_neg h]
    simp only [List.map_cons, merge_chunks, List.flatten_cons]
    rw [show (List.map Prod.fst (split_file C (data.drop C))).flatten =
          merge_chunks (List.map Prod.fst (split_file C (data.drop C))) from rfl]
    rw [ih]
    exact List.take_append_drop C data

/-- C4: for chunk size `C > 0`, the Chunker splits a file of `N` bytes into
exactly `ceil(N/C)` chunks (`0` chunks for an empty file), and merging the
produced chunks in order reproduces the original byte list. -/
theorem chunker_split_count_and_merge (C : Nat) (data : List Nat) (hC : 0 < C) :
    (split_file C data).length = (data.length + C - 1) / C ∧
    (split_file C ([] : List Nat)).length = 0 ∧
    merge_chunks ((split_file C data).map Prod.fst) = data :=
  ⟨split_file_length C hC data,
   by rw [split_file, dif_pos (Or.inr rfl)]; rfl,
   split_file_flatten C hC data⟩

/-- Witness for C4 at a concrete input: a 3-byte file with chunk size 2. -/
theorem chunker_split_count_and_merge_witness :
    (split_file 2 [1, 2, 3]).length = ([1, 2, 3].length + 2 - 1) / 2 ∧
    (split_file 2 ([] : List Nat)).length = 0 ∧
    merge_chunks ((split_file 2 [1, 2, 3]).map Prod.fst) = [1, 2, 3] :=
  chunker_split_count_and_merge 2 [1, 2, 3] (by decide)

/-! ### Backend data model (`src/backend/dropbox/files_service/models.py`)

`Chunks`: `chunk_id` (hash key), `file_id` (range key), `part_number`,
`created_at`, nullable `last_synced`, non-nullable `fingerprint`, nullable
`etag`.  Timestamps are modelled as natural numbers. -/

structure ChunkRec where
  chunk_id : String
  file_id : String
  part_number : Nat
  created_at : Nat
  last_synced : Option Nat
  fingerprint : String
  etag : Option String
deriving Repr, DecidableEq

/-- `FilesMetaData` record (with the `master_file_fingerprint` attribute kept
by `utils/chunks.py:update_master_file_fingerprint`). -/
structure FileRec where
  file_id : String
  file_type : String
  file_path : String
  file_name : String
  file_hash : Option String
  folder_id : String
  upload_id : Option String
  complete_etag : Option String
  master_file_fingerprint : Option String
deriving Repr, DecidableEq

/-- `utils/db.py:get_chunks_for_file`: scan the Chunks table for the file. -/
def get_chunks_for_file (table : List ChunkRec) (fid : String) : List ChunkRec :=
  table.filter (fun c => c.file_id == fid)

/-- Sort key used by `sorted(all_chunks, key=lambda x: x.part_number)`. -/
def chunkLE (a b : ChunkRec) : Prop := a.part_number ≤ b.part_number

instance : DecidableRel chunkLE := fun a b => Nat.decLe a.part_number b.part_number

/-- `utils/chunks.py:calculate_master_file_fingerprint`: `None` when the file
has no chunks; otherwise the SHA-256 hex digest of the chunk fingerprint
strings concatenated after a stable sort by `part_number` (Python `sorted`
is stable; `List.insertionSort` is the stable sort used here). -/
def calculate_master_file_fingerprint (table : List ChunkRec) (fid : String) :
    Option String :=
  let all_chunks := get_chunks_for_file table fid
  if all_chunks = [] then none
  else
    let sorted_chunks := all_chunks.insertionSort chunkLE
    let fingerprints := sorted_chunks.map (fun c => c.fingerprint)
    some (sha256hex (String.join fingerprints))

/-! Sorting facts used for the master-fingerprint claims. -/

theorem pairwise_lt_of_le_ne :
    ∀ {l : List ChunkRec}, l.Pairwise chunkLE →
      l.Pairwise (fun a b => a.part_number ≠ b.part_number) →
      l.Pairwise (fun a b => a.part_number < b.part_number)
  | [], _, _ => List.Pairwise.nil
  | a :: l, h1, h2 => by
    rcases List.pairwise_cons.1 h1 with ⟨h1a, h1l⟩
    rcases List.pairwise_cons.1 h2 with ⟨h2a, h2l⟩
    exact List.pairwise_cons.2
      ⟨fun b hb => Nat.lt_of_le_of_ne (h1a b hb) (h2a b hb),
       pairwise_lt_of_le_ne h1l h2l⟩

/-- A list that is a permutation of a strictly `part_number`-ascending list
sorts (stably, by `part_number`) to exactly that list. -/
theorem insertionSort_eq_of_strict (l asc : List ChunkRec)
    (hperm : l.Perm asc)
    (hsort : asc.Pairwise (fun a b => a.part_number < b.part_number)) :
    l.insertionSort chunkLE = asc := by
  haveI : IsTotal ChunkRec chunkLE :=
    ⟨fun a b => Nat.le_total a.part_number b.part_number⟩
  haveI : IsTrans ChunkRec chunkLE :=
    ⟨fun a b c hab hbc => Nat.le_trans hab hbc⟩
  haveI : IsAntisymm ChunkRec (fun a b : ChunkRec => a.part_number < b.part_number) :=
    ⟨fun a b hab hba => absurd (Nat.lt_trans hab hba) (Nat.lt_irrefl _)⟩
  have hp : (l.insertionSort chunkLE).Perm asc :=
    (List.perm_insertionSort chunkLE l).trans hperm
  have hnd : asc.Pairwise (fun a b => a.part_number ≠ b.part_number) :=
    hsort.imp (fun hab => Nat.ne_of_lt hab)
  have hnd' : (l.insertionSort chunkLE).Pairwise
      (fun a b => a.part_number ≠ b.part_number) := by
    have : ((l.insertionSort chunkLE).map (fun c => c.part_number)).Nodup := by
      refine List.Perm.nodup_iff (List.Perm.map _ hp) |>.2 ?_
      exact List.pairwise_map.2 hnd
    exact List.pairwise_map.1 this
  have hsorted : (l.insertionSort chunkLE).Pairwise
      (fun a b => a.part_number < b.part_number) :=
    pairwise_lt_of_le_ne (List.sorted_insertionSort chunkLE l) hnd'
  exact List.eq_of_perm_of_sorted hp hsorted hsort

/-- C3: for a file with a non-empty chunk set, the master fingerprint is the
SHA-256 hex digest of the chunk fingerprint strings concatenated in strictly
ascending `part_number` order, and any table holding the same chunks in a
different order (part numbers unchanged) yields the same master fingerprint. -/
theorem master_fingerprint_ascending_and_perm_invariant
    (table table2 : List ChunkRec) (fid : String) (asc : List ChunkRec)
    (hperm : (get_chunks_for_file table fid).Perm asc)
    (hsort : asc.Pairwise (fun a b => a.part_number < b.part_number))
    (hne : get_chunks_for_file table fid ≠ [])
    (hperm2 : (get_chunks_for_file table2 fid).Perm (get_chunks_for_file table fid)) :
    calculate_master_file_fingerprint table fid
        = some (sha256hex (String.join (asc.map (fun c => c.fingerprint)))) ∧
    calculate_master_file_fingerprint table2 fid
        = calculate_master_file_fingerprint table fid := by
  have hne2 : get_chunks_for_file table2 fid ≠ [] := by
    intro h0
    exact hne (List.Perm.eq_nil (hperm2.symm.trans (h0 ▸ List.Perm.refl _)))
  have e1 : calculate_master_file_fingerprint table fid
      = some (sha256hex (String.join (asc.map (fun c => c.fingerprint)))) := by
    unfold calculate_master_file_fingerprint
    rw [if_neg hne, insertionSort_eq_of_strict _ _ hperm hsort]
  have e2 : calculate_master_file_fingerprint table2 fid
      = some (sha256hex (String.join (asc.map (fun c => c.fingerprint)))) := by
    unfold calculate_master_file_fingerprint
    rw [if_neg hne2, insertionSort_eq_of_strict _ _ (hperm2.trans hperm) hsort]
  exact ⟨e1, e2.trans e1.symm⟩

/-- Witness for C3: two one-file tables holding the same two chunks in
opposite storage order. -/
theorem master_fingerprint_ascending_and_perm_invariant_witness :
    calculate_master_file_fingerprint
        [⟨"c1", "f", 1, 0, none, "aa", none⟩, ⟨"c2", "f", 2, 0, none, "bb", none⟩] "f"
      = some (sha256hex (String.join
          ([⟨"c1", "f", 1, 0, none, "aa", none⟩,
            ⟨"c2", "f", 2, 0, none, "bb", none⟩].map (fun c : ChunkRec => c.fingerprint)))) ∧
    calculate_master_file_fingerprint
        [⟨"c2", "f", 2, 0, none, "bb", none⟩, ⟨"c1", "f", 1, 0, none, "aa", none⟩] "f"
      = calculate_master_file_fingerprint
        [⟨"c1", "f", 1, 0, none, "aa", none⟩, ⟨"c2", "f", 2, 0, none, "bb", none⟩] "f" :=
  master_fingerprint_ascending_and_perm_invariant
    [⟨"c1", "f", 1, 0, none, "aa", none⟩, ⟨"c2", "f", 2, 0, none, "bb", none⟩]
    [⟨"c2", "f", 2, 0, none, "bb", none⟩, ⟨"c1", "f", 1, 0, none, "aa", none⟩]
    "f"
    [⟨"c1", "f", 1, 0, none, "aa", none⟩, ⟨"c2", "f", 2, 0, none, "bb", none⟩]
    (by decide) (by decide) (by decide) (by decide)

/-- C5 counterexample: a file whose single chunk has an empty fingerprint
still gets a master fingerprint — the aggregator does not fail on chunks
lacking a fingerprint, contrary to the claim. -/
theorem master_fingerprint_empty_fp_counterexample :
    (⟨"c0", "f0", 1, 0, none, "", none⟩ : ChunkRec).fingerprint = "" ∧
    calculate_master_file_fingerprint
      [⟨"c0", "f0", 1, 0, none, "", none⟩] "f0" ≠ none := by
  refine ⟨rfl, ?_⟩
  simp [calculate_master_file_fingerprint, get_chunks_for_file]

/-- C5 (amended): the Fingerprint Aggregator returns `None` exactly when the
file has no chunks; chunks with empty fingerprints are concatenated as empty
strings and do not make it fail. -/
theorem master_fingerprint_none_iff_no_chunks (table : List ChunkRec) (fid : String) :
    calculate_master_file_fingerprint table fid = none ↔
      get_chunks_for_file table fid = [] := by
  unfold calculate_master_file_fingerprint
  by_cases h : get_chunks_for_file table fid = []
  · simp [h]
  · simp [h]

/-! ### Confirm-request validation
(`schema.py:ChunkConfirmRequest.validate_chunk_etags`)

`chunk_etags` entries arrive as JSON dicts; a field modelled as `none` means
the key is absent from the dict. -/

structure ChunkETagDict where
  chunk_id : Option String
  part_number : Option Nat
  etag : Option String
  fingerprint : Option String
deriving Repr, DecidableEq

/-- One entry passes the validator: `chunk_id`, `etag` and `fingerprint` keys
must be present, and the fingerprint value must be truthy (non-empty). -/
def entryValid (e : ChunkETagDict) : Bool :=
  e.chunk_id.isSome && e.etag.isSome && e.fingerprint.isSome &&
    !(e.fingerprint.getD "" == "")

/-- `validate_chunk_etags`: `chunk_etags` may be omitted entirely; when
present, every entry must pass, else a `ValueError` rejects the request. -/
def validate_chunk_etags : Option (List ChunkETagDict) → Bool
  | none => true
  | some v => v.all entryValid

/-- C9 counterexample: an entry with empty `chunk_id` and empty `etag` (but a
non-empty fingerprint) is accepted by the validator, although the claim says
every entry must carry a non-empty `chunk_id` and a non-empty `etag`. -/
theorem validate_chunk_etags_counterexample :
    (⟨some "", some 1, some "", some "f"⟩ : ChunkETagDict).chunk_id = some "" ∧
    (⟨some "", some 1, some "", some "f"⟩ : ChunkETagDict).etag = some "" ∧
    validate_chunk_etags (some [⟨some "", some 1, some "", some "f"⟩]) = true := by
  refine ⟨rfl, rfl, ?_⟩
  decide

/-- C9 (amended): a confirm request is accepted by validation iff every
`chunk_etags` entry carries the `chunk_id` and `etag` keys (possibly with
empty values) and a non-empty `fingerprint`; any violating entry is rejected
at the schema boundary, before any chunk is processed. -/
theorem validate_chunk_etags_characterization (l : List ChunkETagDict) :
    validate_chunk_etags (some l) = true ↔
      ∀ e ∈ l, e.chunk_id.isSome = true ∧ e.etag.isSome = true ∧
        ∃ f, e.fingerprint = some f ∧ f ≠ "" := by
  simp only [validate_chunk_etags, List.all_eq_true]
  constructor
  · intro h e he
    have hv := h e he
    simp only [entryValid, Bool.and_eq_true] at hv
    obtain ⟨⟨⟨hc, het⟩, hfs⟩, hfne⟩ := hv
    refine ⟨hc, het, ?_⟩
    cases hf : e.fingerprint with
    | none => rw [hf] at hfs; simp at hfs
    | some f =>
      refine ⟨f, rfl, ?_⟩
      rw [hf] at hfne
      simpa using hfne
  · intro h e he
    obtain ⟨hc, het, f, hf, hfne⟩ := h e he
    simp [entryValid, hc, het, hf, hfne]

/-! ### Download verification (`api.py:download_chunks`,
`utils/s3.py:generate_download_urls`) -/

structure DownloadChunkInfo where
  chunk_id : String
  part_number : Nat
  fingerprint : String
deriving Repr, DecidableEq

structure InvalidChunk where
  chunk_id : String
  reason : String
deriving Repr, DecidableEq

structure UrlData where
  part_number : Nat
  presigned_url : String
  start_byte : Nat
  end_byte : Nat
  range_header : String
deriving Repr, DecidableEq

structure DownloadUrlEntry where
  chunk_id : String
  part_number : Nat
  fingerprint : String
  presigned_url : String
  start_byte : Nat
  end_byte : Nat
  range_header : String
deriving Repr, DecidableEq

/-- Result of the handler.  The HTTP response carries `download_urls`,
`success` and `error_message`; `invalid_chunks` is the handler's internal
accumulation of per-chunk rejection reasons (surfaced only as a count in
`error_message`), kept here so the reasons can be stated. -/
structure DownloadResult where
  download_urls : List DownloadUrlEntry
  success : Bool
  error_message : Option String
  invalid_chunks : List InvalidChunk
deriving Repr, DecidableEq

/-- Lookup in the dict `{chunk.chunk_id: chunk}`: later entries of the scan
overwrite earlier ones, so the last match wins. -/
def chunkMapLookup (chunks : List ChunkRec) (cid : String) : Option ChunkRec :=
  chunks.reverse.find? (fun c => c.chunk_id == cid)

/-- `utils/s3.py:generate_download_url`: presigned GET URL (opaque to this
model) plus the advisory byte range for a 1-based part number. -/
def generate_download_url (fid : String) (pn chunkSize : Nat) : UrlData :=
  let start_byte := (pn - 1) * chunkSize
  let end_byte := pn * chunkSize - 1
  { part_number := pn
    presigned_url := "presigned-get:" ++ fid ++ ":" ++ toString pn
    start_byte := start_byte
    end_byte := end_byte
    range_header := "bytes=" ++ toString start_byte ++ "-" ++ toString end_byte }

/-- `utils/s3.py:generate_download_urls` over a list of part numbers. -/
def generate_download_urls (fid : String) (pns : List Nat) (chunkSize : Nat) :
    List UrlData :=
  pns.map (fun pn => generate_download_url fid pn chunkSize)

/-- One iteration of the verification loop of `download_chunks`: route the
requested chunk to the valid list (carrying the stored part number and
fingerprint) or to the invalid list with the code's reason string. -/
def classifyStep (fileChunks : List ChunkRec) (ci : DownloadChunkInfo)
    (p : List DownloadChunkInfo × List InvalidChunk) :
    List DownloadChunkInfo × List InvalidChunk :=
  (chunkMapLookup fileChunks ci.chunk_id).elim
    (p.1, ⟨ci.chunk_id, "Chunk not found"⟩ :: p.2)
    (fun c =>
      if c.part_number ≠ ci.part_number then
        (p.1, ⟨ci.chunk_id,
          "Part number mismatch: requested " ++ toString ci.part_number ++
          ", stored " ++ toString c.part_number⟩ :: p.2)
      else if c.fingerprint ≠ ci.fingerprint then
        (p.1, ⟨ci.chunk_id, "Fingerprint has changed, please try again"⟩ :: p.2)
      else
        (⟨ci.chunk_id, c.part_number, c.fingerprint⟩ :: p.1, p.2))

/-- The verification loop of `download_chunks`, in request order. -/
def classifyRequested (fileChunks : List ChunkRec) :
    List DownloadChunkInfo → List DownloadChunkInfo × List InvalidChunk
  | [] => ([], [])
  | ci :: rest => classifyStep fileChunks ci (classifyRequested fileChunks rest)

theorem classifyStep_not_found {fc : List ChunkRec} {ci : DownloadChunkInfo}
    (p : List DownloadChunkInfo × List InvalidChunk)
    (h : chunkMapLookup fc ci.chunk_id = none) :
    classifyStep fc ci p = (p.1, ⟨ci.chunk_id, "Chunk not found"⟩ :: p.2) := by
  unfold classifyStep
  rw [h]
  rfl

theorem classifyStep_pn_mismatch {fc : List ChunkRec} {ci : DownloadChunkInfo}
    {c : ChunkRec} (p : List DownloadChunkInfo × List InvalidChunk)
    (h : chunkMapLookup fc ci.chunk_id = some c)
    (hpn : c.part_number ≠ ci.part_number) :
    classifyStep fc ci p = (p.1, ⟨ci.chunk_id,
      "Part number mismatch: requested " ++ toString ci.part_number ++
      ", stored " ++ toString c.part_number⟩ :: p.2) := by
  unfold classifyStep
  rw [h]
  simp only [Option.elim_some]
  rw [if_pos hpn]

theorem classifyStep_fp_mismatch {fc : List ChunkRec} {ci : DownloadChunkInfo}
    {c : ChunkRec} (p : List DownloadChunkInfo × List InvalidChunk)
    (h : chunkMapLookup fc ci.chunk_id = some c)
    (hpn : c.part_number = ci.part_number)
    (hfp : c.fingerprint ≠ ci.fingerprint) :
    classifyStep fc ci p =
      (p.1, ⟨ci.chunk_id, "Fingerprint has changed, please try again"⟩ :: p.2) := by
  unfold classifyStep
  rw [h]
  simp only [Option.elim_some]
  rw [if_neg (by simp [hpn]), if_pos hfp]

theorem classifyStep_valid {fc : List ChunkRec} {ci : DownloadChunkInfo}
    {c : ChunkRec} (p : List DownloadChunkInfo × List InvalidChunk)
    (h : chunkMapLookup fc ci.chunk_id = some c)
    (hpn : c.part_number = ci.part_number)
    (hfp : c.fingerprint = ci.fingerprint) :
    classifyStep fc ci p = (⟨ci.chunk_id, c.part_number, c.fingerprint⟩ :: p.1, p.2) := by
  unfold classifyStep
  rw [h]
  simp only [Option.elim_some]
  rw [if_neg (by simp [hpn]), if_neg (by simp [hfp])]

/-- `api.py:download_chunks`. -/
def download_chunks (table : List ChunkRec) (fid : String)
    (requested : List DownloadChunkInfo) (chunkSize : Nat) : DownloadResult :=
  let fileChunks := get_chunks_for_file table fid
  if fileChunks = [] then
    { download_urls := [], success := false,
      error_message := some ("No chunks found for file " ++ fid),
      invalid_chunks := [] }
  else
    let p := classifyRequested fileChunks requested
    if p.1 = [] then
      { download_urls := [], success := false,
        error_message :=
          some "No valid chunks found for download. Fingerprints may have changed.",
        invalid_chunks := p.2 }
    else
      let url_data :=
        generate_download_urls fid (p.1.map (fun v => v.part_number)) chunkSize
      let download_urls := p.1.filterMap (fun v =>
        match url_data.find? (fun d => d.part_number == v.part_number) with
        | none => none
        | some u => some ⟨v.chunk_id, v.part_number, v.fingerprint,
            u.presigned_url, u.start_byte, u.end_byte, u.range_header⟩)
      { download_urls := download_urls, success := true,
        error_message :=
          if p.2 = [] then none
          else some (toString p.2.length ++ " chunks had errors"),
        invalid_chunks := p.2 }

/-- A requested chunk validates: it is stored, with matching part number and
matching fingerprint. -/
def requestValidates (fileChunks : List ChunkRec) (q : DownloadChunkInfo) : Prop :=
  ∃ c, chunkMapLookup fileChunks q.chunk_id = some c ∧
    c.part_number = q.part_number ∧ c.fingerprint = q.fingerprint

theorem classify_invalid_mem (fc : List ChunkRec)
    (requested : List DownloadChunkInfo) (r : DownloadChunkInfo) (c : ChunkRec)
    (hr : r ∈ requested)
    (hc : chunkMapLookup fc r.chunk_id = some c)
    (hpn : c.part_number = r.part_number)
    (hfp : c.fingerprint ≠ r.fingerprint) :
    (⟨r.chunk_id, "Fingerprint has changed, please try again"⟩ : InvalidChunk)
      ∈ (classifyRequested fc requested).2 := by
  induction requested with
  | nil => cases hr
  | cons ci rest ih =>
    rcases List.mem_cons.1 hr with h | h
    · subst h
      rw [classifyRequested, classifyStep_fp_mismatch _ hc hpn hfp]
      exact List.mem_cons_self _ _
    · have hmem := ih h
      rw [classifyRequested]
      cases hl : chunkMapLookup fc ci.chunk_id with
      | none =>
        rw [classifyStep_not_found _ hl]
        exact List.mem_cons_of_mem _ hmem
      | some c2 =>
        by_cases h1 : c2.part_number = ci.part_number
        · by_cases h2 : c2.fingerprint = ci.fingerprint
          · rw [classifyStep_valid _ hl h1 h2]
            exact hmem
          · rw [classifyStep_fp_mismatch _ hl h1 h2]
            exact List.mem_cons_of_mem _ hmem
        · rw [classifyStep_pn_mismatch _ hl h1]
          exact List.mem_cons_of_mem _ hmem

theorem classify_valid_stored (fc : List ChunkRec)
    (requested : List DownloadChunkInfo) (v : DownloadChunkInfo)
    (hv : v ∈ (classifyRequested fc requested).1) :
    ∃ c, chunkMapLookup fc v.chunk_id = some c ∧
      v.part_number = c.part_number ∧ v.fingerprint = c.fingerprint := by
  induction requested with
  | nil => cases hv
  | cons ci rest ih =>
    rw [classifyRequested] at hv
    cases hl : chunkMapLookup fc ci.chunk_id with
    | none =>
      rw [classifyStep_not_found _ hl] at hv
      exact ih hv
    | some c2 =>
      by_cases h1 : c2.part_number = ci.part_number
      · by_cases h2 : c2.fingerprint = ci.fingerprint
        · rw [classifyStep_valid _ hl h1 h2] at hv
          rcases List.mem_cons.1 hv with h | h
          · subst h
            exact ⟨c2, hl, rfl, rfl⟩
          · exact ih h
        · rw [classifyStep_fp_mismatch _ hl h1 h2] at hv
          exact ih hv
      · rw [classifyStep_pn_mismatch _ hl h1] at hv
        exact ih hv

theorem classify_valid_nonempty_iff (fc : List ChunkRec)
    (requested : List DownloadChunkInfo) :
    (classifyRequested fc requested).1 ≠ [] ↔
      ∃ q ∈ requested, requestValidates fc q := by
  induction requested with
  | nil => simp [classifyRequested]
  | cons ci rest ih =>
    rw [classifyRequested]
    cases hl : chunkMapLookup fc ci.chunk_id with
    | none =>
      rw [classifyStep_not_found _ hl]
      simp only [List.mem_cons, exists_eq_or_imp]
      rw [← ih]
      have hn : ¬requestValidates fc ci := by
        rintro ⟨c, hc, -⟩
        rw [hl] at hc
        cases hc
      simp [hn]
    | some c2 =>
      by_cases h1 : c2.part_number = ci.part_number
      · by_cases h2 : c2.fingerprint = ci.fingerprint
        · rw [classifyStep_valid _ hl h1 h2]
          simp only [List.mem_cons, exists_eq_or_imp]
          have hy : requestValidates fc ci := ⟨c2, hl, h1, h2⟩
          simp [hy]
        · rw [classifyStep_fp_mismatch _ hl h1 h2]
          simp only [List.mem_cons, exists_eq_or_imp]
          rw [← ih]
          have hn : ¬requestValidates fc ci := by
            rintro ⟨c, hc, -, hfp⟩
            rw [hl] at hc
            injection hc with hc
            subst hc
            exact h2 hfp
          simp [hn]
      · rw [classifyStep_pn_mismatch _ hl h1]
        simp only [List.mem_cons, exists_eq_or_imp]
        rw [← ih]
        have hn : ¬requestValidates fc ci := by
          rintro ⟨c, hc, hpn, -⟩
          rw [hl] at hc
          injection hc with hc
          subst hc
          exact h1 hpn
        simp [hn]

/-- C6: in a download response, every requested chunk whose stored
fingerprint differs from the requested one (part number matching) is recorded
invalid with the fingerprint-mismatch reason and no download URL in the
response pairs its chunk id with its fingerprint; and the success flag is
`true` exactly when at least one requested chunk validates. -/
theorem download_invalid_eq (table : List ChunkRec) (fid : String)
    (requested : List DownloadChunkInfo) (chunkSize : Nat)
    (h : get_chunks_for_file table fid ≠ []) :
    (download_chunks table fid requested chunkSize).invalid_chunks =
      (classifyRequested (get_chunks_for_file table fid) requested).2 := by
  simp only [download_chunks]
  rw [if_neg h]
  split
  · rfl
  · rfl

theorem download_success_iff (table : List ChunkRec) (fid : String)
    (requested : List DownloadChunkInfo) (chunkSize : Nat) :
    (download_chunks table fid requested chunkSize).success = true ↔
      get_chunks_for_file table fid ≠ [] ∧
      (classifyRequested (get_chunks_for_file table fid) requested).1 ≠ [] := by
  simp only [download_chunks]
  by_cases h1 : get_chunks_for_file table fid = []
  · rw [if_pos h1]
    simp [h1]
  · rw [if_neg h1]
    by_cases h2 : (classifyRequested (get_chunks_for_file table fid) requested).1 = []
    · rw [if_pos h2]
      simp [h1, h2]
    · rw [if_neg h2]
      simp [h1, h2]

theorem download_urls_from_valid (table : List ChunkRec) (fid : String)
    (requested : List DownloadChunkInfo) (chunkSize : Nat) :
    ∀ u ∈ (download_chunks table fid requested chunkSize).download_urls,
      ∃ v ∈ (classifyRequested (get_chunks_for_file table fid) requested).1,
        u.chunk_id = v.chunk_id ∧ u.fingerprint = v.fingerprint := by
  intro u hu
  simp only [download_chunks] at hu
  split at hu
  · simp at hu
  · split at hu
    · simp at hu
    · rcases List.mem_filterMap.1 hu with ⟨v, hv, hf⟩
      refine ⟨v, hv, ?_⟩
      rcases hm : (generate_download_urls fid
          ((classifyRequested (get_chunks_for_file table fid) requested).1.map
            (fun v => v.part_number)) chunkSize).find?
          (fun d => d.part_number == v.part_number) with _ | u2
      · rw [hm] at hf
        cases hf
      · rw [hm] at hf
        injection hf with hf
        subst hf
        exact ⟨rfl, rfl⟩

/-- C6: in a download response, every requested chunk whose stored
fingerprint differs from the requested one (part number matching) is recorded
invalid with the fingerprint-mismatch reason and no download URL in the
response pairs its chunk id with its fingerprint; and the success flag is
`true` exactly when at least one requested chunk validates. -/
theorem download_mismatch_never_url_and_success_iff (table : List ChunkRec)
    (fid : String) (requested : List DownloadChunkInfo) (chunkSize : Nat) :
    (∀ r ∈ requested, ∀ c,
      chunkMapLookup (get_chunks_for_file table fid) r.chunk_id = some c →
      c.part_number = r.part_number →
      c.fingerprint ≠ r.fingerprint →
      (⟨r.chunk_id, "Fingerprint has changed, please try again"⟩ : InvalidChunk)
          ∈ (download_chunks table fid requested chunkSize).invalid_chunks ∧
      ∀ u ∈ (download_chunks table fid requested chunkSize).download_urls,
        ¬(u.chunk_id = r.chunk_id ∧ u.fingerprint = r.fingerprint)) ∧
    ((download_chunks table fid requested chunkSize).success = true ↔
      ∃ q ∈ requested, requestValidates (get_chunks_for_file table fid) q) := by
  constructor
  · intro r hr c hc hpn hfp
    have hfcne : get_chunks_for_file table fid ≠ [] := by
      intro h0
      rw [h0] at hc
      cases hc
    constructor
    · rw [download_invalid_eq table fid requested chunkSize hfcne]
      exact classify_invalid_mem _ requested r c hr hc hpn hfp
    · rintro u hu ⟨hcid, hfgp⟩
      rcases download_urls_from_valid table fid requested chunkSize u hu with
        ⟨v, hv, hvc, hvf⟩
      rcases classify_valid_stored _ requested v hv with ⟨c2, hl2, _, hfp2⟩
      have hvr : v.chunk_id = r.chunk_id := hvc.symm.trans hcid
      rw [hvr] at hl2
      have hcc : c2 = c := Option.some.inj (hl2.symm.trans hc)
      apply hfp
      rw [← hcc, ← hfp2, ← hvf, hfgp]
  · rw [download_success_iff, ← classify_valid_nonempty_iff]
    constructor
    · rintro ⟨-, h⟩
      exact h
    · intro h
      refine ⟨?_, h⟩
      intro h0
      rw [classify_valid_nonempty_iff] at h
      rcases h with ⟨q, hq, cc, hcc, -⟩
      rw [h0] at hcc
      cases hcc

/-- Witness for C6: one stored chunk, one matching request and one request
with a stale fingerprint. -/
theorem download_mismatch_witness :
    (∀ r ∈ [(⟨"c1", 1, "old"⟩ : DownloadChunkInfo), ⟨"c1", 1, "fp"⟩], ∀ c,
      chunkMapLookup (get_chunks_for_file [⟨"c1", "f", 1, 0, none, "fp", none⟩] "f")
          r.chunk_id = some c →
      c.part_number = r.part_number →
      c.fingerprint ≠ r.fingerprint →
      (⟨r.chunk_id, "Fingerprint has changed, please try again"⟩ : InvalidChunk)
          ∈ (download_chunks [⟨"c1", "f", 1, 0, none, "fp", none⟩] "f"
              [⟨"c1", 1, "old"⟩, ⟨"c1", 1, "fp"⟩] 5).invalid_chunks ∧
      ∀ u ∈ (download_chunks [⟨"c1", "f", 1, 0, none, "fp", none⟩] "f"
              [⟨"c1", 1, "old"⟩, ⟨"c1", 1, "fp"⟩] 5).download_urls,
        ¬(u.chunk_id = r.chunk_id ∧ u.fingerprint = r.fingerprint)) ∧
    ((download_chunks [⟨"c1", "f", 1, 0, none, "fp", none⟩] "f"
        [⟨"c1", 1, "old"⟩, ⟨"c1", 1, "fp"⟩] 5).success = true ↔
      ∃ q ∈ [(⟨"c1", 1, "old"⟩ : DownloadChunkInfo), ⟨"c1", 1, "fp"⟩],
        requestValidates
          (get_chunks_for_file [⟨"c1", "f", 1, 0, none, "fp", none⟩] "f") q) :=
  download_mismatch_never_url_and_success_iff
    [⟨"c1", "f", 1, 0, none, "fp", none⟩] "f"
    [⟨"c1", 1, "old"⟩, ⟨"c1", 1, "fp"⟩] 5

/-! ### Sync endpoint (`api.py:sync_client`) -/

structure SyncChunkInfo where
  chunk_id : String
  part_number : Nat
  fingerprint : String
  created_at : Nat
deriving Repr, DecidableEq

structure SyncFileInfo where
  file_id : String
  file_path : String
  file_name : String
  file_type : String
  folder_id : String
  master_file_fingerprint : Option String
  chunks : List SyncChunkInfo
deriving Repr, DecidableEq

structure SyncResponse where
  updated_files : List SyncFileInfo
  up_to_date : Bool
  last_sync_time : Nat
deriving Repr, DecidableEq

/-- `FilesMetaData.get(file_id)`. -/
def filesLookup (files : List FileRec) (fid : String) : Option FileRec :=
  files.find? (fun f => f.file_id == fid)

/-- The iteration order of the Python group-by dict: distinct `file_id`s in
order of first occurrence. -/
def firstKeys : List String → List String
  | [] => []
  | k :: rest => k :: firstKeys (rest.filter (fun x => x ≠ k))
termination_by l => l.length
decreasing_by
  exact Nat.lt_succ_of_le (List.length_filter_le _ _)

/-- `api.py:sync_client`: return, grouped per file, the chunks created
strictly after the supplied cursor, skipping groups whose file metadata is
missing; the response carries the server's current time as the new cursor. -/
def sync_client (chunksTable : List ChunkRec) (filesTable : List FileRec)
    (last_sync_time : Nat) (current_time : Nat) : SyncResponse :=
  let updated_chunks := chunksTable.filter (fun c => last_sync_time < c.created_at)
  if updated_chunks = [] then
    { updated_files := [], up_to_date := true, last_sync_time := current_time }
  else
    let keys := firstKeys (updated_chunks.map (fun c => c.file_id))
    let updated_files := keys.filterMap (fun fid =>
      (filesLookup filesTable fid).elim none (fun fm => some
        { file_id := fid
          file_path := fm.file_path
          file_name := fm.file_name
          file_type := fm.file_type
          folder_id := fm.folder_id
          master_file_fingerprint := fm.master_file_fingerprint
          chunks := (updated_chunks.filter (fun c => c.file_id == fid)).map
            (fun c => ⟨c.chunk_id, c.part_number, c.fingerprint, c.created_at⟩) }))
    { updated_files := updated_files, up_to_date := false,
      last_sync_time := current_time }

/-- C8: the sync endpoint never returns a chunk created at or before the
supplied cursor; the returned cursor is the server's current time; and
re-polling with the returned cursor over unchanged data (every stored chunk
created no later than that time) yields an empty changeset with
`up_to_date = true`. -/
theorem sync_strictly_after_cursor_and_repoll_empty
    (chunksTable : List ChunkRec) (filesTable : List FileRec)
    (t0 now1 now2 : Nat)
    (hall : ∀ c ∈ chunksTable, c.created_at ≤ now1) :
    (∀ f ∈ (sync_client chunksTable filesTable t0 now1).updated_files,
      ∀ ch ∈ f.chunks, t0 < ch.created_at) ∧
    (sync_client chunksTable filesTable t0 now1).last_sync_time = now1 ∧
    sync_client chunksTable filesTable
        ((sync_client chunksTable filesTable t0 now1).last_sync_time) now2 =
      { updated_files := [], up_to_date := true, last_sync_time := now2 } := by
  have hcursor : (sync_client chunksTable filesTable t0 now1).last_sync_time
      = now1 := by
    simp only [sync_client]
    split
    · rfl
    · rfl
  refine ⟨?_, hcursor, ?_⟩
  · intro f hf ch hch
    simp only [sync_client] at hf
    split at hf
    · simp at hf
    · rcases List.mem_filterMap.1 hf with ⟨fid, hfid, hmk⟩
      cases hl : filesLookup filesTable fid with
      | none =>
        rw [hl] at hmk
        cases hmk
      | some fm =>
        rw [hl] at hmk
        simp only [Option.elim_some] at hmk
        injection hmk with hmk
        subst hmk
        simp only at hch
        rcases List.mem_map.1 hch with ⟨c, hcmem, hceq⟩
        rcases List.mem_filter.1 hcmem with ⟨hcupd, -⟩
        rcases List.mem_filter.1 hcupd with ⟨-, hlt⟩
        subst hceq
        simpa using of_decide_eq_true hlt
  · rw [hcursor]
    have hnil : chunksTable.filter (fun c => decide (now1 < c.created_at)) = [] := by
      rw [List.filter_eq_nil_iff]
      intro c hc
      simpa using Nat.not_lt.2 (hall c hc)
    simp only [sync_client]
    rw [if_pos hnil]

/-- Witness for C8: one stored chunk created at time 5, first poll at cursor
0 with server time 10, re-poll with the returned cursor at server time 20. -/
theorem sync_strictly_after_cursor_and_repoll_empty_witness :
    (∀ f ∈ (sync_client [⟨"c1", "f", 1, 5, none, "fp", none⟩]
        [⟨"f", "txt", "/a/b.txt", "b.txt", none, "root", none, none, none⟩]
        0 10).updated_files,
      ∀ ch ∈ f.chunks, 0 < ch.created_at) ∧
    (sync_client [⟨"c1", "f", 1, 5, none, "fp", none⟩]
        [⟨"f", "txt", "/a/b.txt", "b.txt", none, "root", none, none, none⟩]
        0 10).last_sync_time = 10 ∧
    sync_client [⟨"c1", "f", 1, 5, none, "fp", none⟩]
        [⟨"f", "txt", "/a/b.txt", "b.txt", none, "root", none, none, none⟩]
        ((sync_client [⟨"c1", "f", 1, 5, none, "fp", none⟩]
          [⟨"f", "txt", "/a/b.txt", "b.txt", none, "root", none, none, none⟩]
          0 10).last_sync_time) 20 =
      { updated_files := [], up_to_date := true, last_sync_time := 20 } :=
  sync_strictly_after_cursor_and_repoll_empty
    [⟨"c1", "f", 1, 5, none, "fp", none⟩]
    [⟨"f", "txt", "/a/b.txt", "b.txt", none, "root", none, none, none⟩]
    0 10 20 (by decide)

/-! ### Client sync engine (`src/client/server/sync.py`, local SQLite model
from `src/client/db/models.py`) -/

structure ClientFile where
  file_id : String
  file_type : String
  file_path : String
  file_name : String
  file_hash : Option String
  folder_id : String
deriving Repr, DecidableEq

structure ClientChunk where
  chunk_id : String
  file_id : String
  part_number : Nat
  created_at : Nat
  last_synced : Option Nat
  fingerprint : String
deriving Repr, DecidableEq

structure ClientState where
  files : List ClientFile
  chunks : List ClientChunk
deriving Repr, DecidableEq

/-- Events of one `upload_file` run: chunk rows deleted, chunk rows created,
and whether `_process_file_chunks` ran at all. -/
structure UploadEvents where
  chunksDeleted : Nat
  chunksCreated : Nat
  processedChunks : Bool
deriving Repr, DecidableEq

/-- `SyncEngine.calculate_file_hash`: SHA-256 over the whole file. -/
def calculate_file_hash (content : List Nat) : String := sha256hexBytes content

/-- `SyncEngine.find_existing_file`: lookup by exact path match. -/
def find_existing_file (s : ClientState) (path : String) : Option ClientFile :=
  s.files.find? (fun f => f.file_path == path)

/-- Local-database effect of `SyncEngine._process_file_chunks`: one chunk row
per `split_file` piece, part numbers starting at 1 (the network interaction
with the files service is outside this state model). -/
def process_file_chunks (s : ClientState) (fid : String) (content : List Nat)
    (chunkSize now : Nat) : ClientState × Nat :=
  let pieces := split_file chunkSize content
  let newChunks := (List.range pieces.length).zip pieces |>.map (fun p =>
    (⟨fid ++ "_" ++ toString p.1, fid, p.1 + 1, now, none, p.2.2⟩ : ClientChunk))
  ({ s with chunks := s.chunks ++ newChunks }, newChunks.length)

/-- `SyncEngine.upload_file`.  `folder_id` abstracts the result of
`ensure_parent_directories(dirname(path))`; `file_name`/`file_type` are the
basename and extension of `path`; `newFileId` is the UUID drawn when no file
exists at the path. -/
def upload_file (s : ClientState) (path : String) (content : List Nat)
    (folder_id file_name file_type newFileId : String) (chunkSize now : Nat) :
    ClientState × UploadEvents :=
  let fileHash := calculate_file_hash content
  match find_existing_file s path with
  | some existing =>
    let updated : ClientFile :=
      ⟨existing.file_id, file_type, existing.file_path, file_name,
       some fileHash, folder_id⟩
    let newFiles := s.files.map
      (fun f => if f.file_id == existing.file_id then updated else f)
    let s1 : ClientState := ⟨newFiles, s.chunks⟩
    if existing.file_hash ≠ some fileHash then
      let deleted :=
        (s1.chunks.filter (fun c => c.file_id == existing.file_id)).length
      let s2 : ClientState :=
        ⟨s1.files, s1.chunks.filter (fun c => !(c.file_id == existing.file_id))⟩
      let pr := process_file_chunks s2 existing.file_id content chunkSize now
      (pr.1, ⟨deleted, pr.2, true⟩)
    else
      (s1, ⟨0, 0, false⟩)
  | none =>
    let s1 : ClientState :=
      ⟨s.files ++ [⟨newFileId, file_type, path, file_name, some fileHash, folder_id⟩],
       s.chunks⟩
    let pr := process_file_chunks s1 newFileId content chunkSize now
    (pr.1, ⟨0, pr.2, true⟩)

theorem map_replace_found (files : List ClientFile) (f0 g : ClientFile)
    (hg : g = f0)
    (hmem : f0 ∈ files)
    (hnd : (files.map (fun f => f.file_id)).Nodup) :
    files.map (fun f => if f.file_id == f0.file_id then g else f) = files := by
  subst hg
  induction files with
  | nil => cases hmem
  | cons y ys ih =>
    rcases List.nodup_cons.1 hnd with ⟨hy, hys⟩
    simp only [List.map_cons]
    rcases List.mem_cons.1 hmem with h | h
    · subst h
      have htail : ys.map (fun f => if f.file_id == g.file_id then g else f)
          = ys.map id := by
        apply List.map_congr_left
        intro x hx
        have hne : x.file_id ≠ g.file_id := by
          intro he
          exact hy (by simpa [he] using List.mem_map_of_mem (fun f => f.file_id) hx)
        simp [hne]
      rw [htail, List.map_id]
      simp
    · have hyne : y.file_id ≠ g.file_id := by
        intro he
        exact hy (by simpa [← he] using List.mem_map_of_mem (fun f => f.file_id) h)
      rw [ih hys h]
      simp [hyne]

/-- C7: re-running `upload_file` on a path whose stored file hash equals the
hash of the current content deletes no chunk rows, creates no chunk rows,
skips chunk processing entirely, and leaves the database state unchanged
(given consistent stored metadata and unique file ids). -/
theorem upload_file_unchanged_hash_noop (s : ClientState) (path : String)
    (content : List Nat) (folder_id file_name file_type newFileId : String)
    (chunkSize now : Nat) (f0 : ClientFile)
    (hfind : find_existing_file s path = some f0)
    (hhash : f0.file_hash = some (calculate_file_hash content))
    (hname : f0.file_name = file_name)
    (htype : f0.file_type = file_type)
    (hfolder : f0.folder_id = folder_id)
    (hnd : (s.files.map (fun f => f.file_id)).Nodup) :
    upload_file s path content folder_id file_name file_type newFileId
        chunkSize now = (s, ⟨0, 0, false⟩) := by
  have hmem : f0 ∈ s.files := List.mem_of_find?_eq_some hfind
  have hupd : (⟨f0.file_id, file_type, f0.file_path, file_name,
      some (calculate_file_hash content), folder_id⟩ : ClientFile) = f0 := by
    cases f0
    simp_all
  simp only [upload_file, hfind]
  rw [if_neg (by simp [hhash])]
  rw [map_replace_found s.files f0 _ hupd hmem hnd]

/-- Witness for C7: a one-file, one-chunk local database re-uploading
unchanged content. -/
theorem upload_file_unchanged_hash_noop_witness :
    upload_file
      ⟨[⟨"id1", "txt", "/r/a.txt", "a.txt", some (calculate_file_hash [1, 2]), "root"⟩],
       [⟨"id1_0", "id1", 1, 0, none, "x"⟩]⟩
      "/r/a.txt" [1, 2] "root" "a.txt" "txt" "newid" 5 9 =
    (⟨[⟨"id1", "txt", "/r/a.txt", "a.txt", some (calculate_file_hash [1, 2]), "root"⟩],
      [⟨"id1_0", "id1", 1, 0, none, "x"⟩]⟩, ⟨0, 0, false⟩) :=
  upload_file_unchanged_hash_noop
    ⟨[⟨"id1", "txt", "/r/a.txt", "a.txt", some (calculate_file_hash [1, 2]), "root"⟩],
     [⟨"id1_0", "id1", 1, 0, none, "x"⟩]⟩
    "/r/a.txt" [1, 2] "root" "a.txt" "txt" "newid" 5 9
    ⟨"id1", "txt", "/r/a.txt", "a.txt", some (calculate_file_hash [1, 2]), "root"⟩
    rfl rfl rfl rfl rfl (by simp)

/-! ### Upload coordination: chunk confirmation and file creation
(`api.py:confirm_chunks`, `api.py:create_file`,
`firebox .../utils/chunks.py`, `utils/files.py`, `utils/s3.py`).

The backend state holds the two DynamoDB tables and the set of multipart
uploads open at the object store. -/

structure BackendState where
  files : List FileRec
  chunks : List ChunkRec
  uploads : List (String × String)
deriving Repr, DecidableEq

/-- Outcome of the object store's `complete_multipart_upload` call. -/
inductive CompletionOutcome where
  | ok (etag : String)
  | fail
deriving Repr, DecidableEq

structure HttpError where
  status : Nat
deriving Repr, DecidableEq

structure ConfirmResponse where
  file_id : String
  confirmed_chunks : Nat
  success : Bool
  master_file_fingerprint : Option String
deriving Repr, DecidableEq

/-- A validated `chunk_etags` entry (shape enforced by the schema). -/
structure ChunkETagInfo where
  chunk_id : String
  part_number : Nat
  etag : String
  fingerprint : String
deriving Repr, DecidableEq

structure EtagData where
  part_number : Nat
  etag : String
  fingerprint : String
deriving Repr, DecidableEq

/-- The part entries accumulated for the completion call. -/
structure PartInfo where
  PartNumber : Nat
  ETag : String
deriving Repr, DecidableEq

/-- `utils/chunks.py:process_etag_info`: build the `chunk_id → info` dict; an
empty fingerprint is replaced by a debugging placeholder. -/
def process_etag_info (chunk_etags : List ChunkETagInfo) :
    List (String × EtagData) :=
  chunk_etags.map (fun e =>
    (e.chunk_id,
     ⟨e.part_number, e.etag,
      if e.fingerprint = "" then "MISSING-FINGERPRINT-" ++ e.chunk_id
      else e.fingerprint⟩))

/-- Dict lookup in the etag map (later entries overwrite earlier ones). -/
def etagLookup (m : List (String × EtagData)) (cid : String) : Option EtagData :=
  (m.reverse.find? (fun p => p.1 == cid)).map (fun p => p.2)

/-- `Chunks.save()`: DynamoDB put-item keyed by `(chunk_id, file_id)`. -/
def saveChunk (table : List ChunkRec) (c : ChunkRec) : List ChunkRec :=
  if table.any (fun x => x.chunk_id == c.chunk_id && x.file_id == c.file_id) then
    table.map (fun x =>
      if x.chunk_id == c.chunk_id && x.file_id == c.file_id then c else x)
  else table ++ [c]

/-- `FilesMetaData.save()`: put-item keyed by `file_id`. -/
def saveFileRec (files : List FileRec) (f : FileRec) : List FileRec :=
  if files.any (fun x => x.file_id == f.file_id) then
    files.map (fun x => if x.file_id == f.file_id then f else x)
  else files ++ [f]

/-- Python `str.strip()` of quote characters. -/
def stripQuoteChars (s : String) : String :=
  String.mk (((s.toList.dropWhile (fun ch => ch == '"')).reverse.dropWhile
    (fun ch => ch == '"')).reverse)

/-- `utils/chunks.py:update_chunk_with_etag`: set `etag`, `fingerprint` and
`last_synced` on the chunk record, and return the part entry whose ETag is
normalized to the quoted form the object store expects. -/
def update_chunk_with_etag (chunk : ChunkRec) (info : EtagData) (now : Nat) :
    ChunkRec × PartInfo :=
  let updated : ChunkRec :=
    ⟨chunk.chunk_id, chunk.file_id, chunk.part_number, chunk.created_at,
     some now, info.fingerprint, some info.etag⟩
  let etagValue :=
    if info.etag.startsWith "\"" && info.etag.endsWith "\"" then info.etag
    else "\"" ++ stripQuoteChars info.etag ++ "\""
  (updated, ⟨chunk.part_number, etagValue⟩)

/-- `utils/chunks.py:process_chunks`: walk `chunk_ids` against the snapshot
`chunk_map`, saving updated (or newly created) chunk rows into the table and
accumulating the parts list; returns the written table, the confirmed count
and the parts. -/
def process_chunks (chunk_map : List ChunkRec) (fid : String) (now : Nat)
    (etag_map : List (String × EtagData)) :
    List String → List ChunkRec → List ChunkRec × Nat × List PartInfo
  | [], table => (table, 0, [])
  | cid :: rest, table =>
    match chunkMapLookup chunk_map cid, etagLookup etag_map cid with
    | some chunk, some info =>
      let up := update_chunk_with_etag chunk info now
      let r := process_chunks chunk_map fid now etag_map rest (saveChunk table up.1)
      (r.1, r.2.1 + 1, up.2 :: r.2.2)
    | some _, none =>
      process_chunks chunk_map fid now etag_map rest table
    | none, some info =>
      let created : ChunkRec :=
        ⟨cid, fid, info.part_number, now, none, info.fingerprint, some info.etag⟩
      let t1 := saveChunk table created
      let up := update_chunk_with_etag created info now
      let r := process_chunks chunk_map fid now etag_map rest (saveChunk t1 up.1)
      (r.1, r.2.1 + 1, up.2 :: r.2.2)
    | none, none =>
      process_chunks chunk_map fid now etag_map rest table

/-- `utils/chunks.py:update_master_file_fingerprint`: recompute the master
fingerprint and store it on the file record (no-op when the computation or
the metadata fetch fails). -/
def update_master_file_fingerprint (s : BackendState) (fid : String) :
    BackendState :=
  (calculate_master_file_fingerprint s.chunks fid).elim s (fun m =>
    (filesLookup s.files fid).elim s (fun fm =>
      ⟨saveFileRec s.files
        ⟨fm.file_id, fm.file_type, fm.file_path, fm.file_name, fm.file_hash,
         fm.folder_id, fm.upload_id, fm.complete_etag, some m⟩,
       s.chunks, s.uploads⟩))

/-- `utils/s3.py:complete_multipart_upload_process`: with a non-empty parts
list, sort the parts and call completion; on success store `complete_etag`
and refresh the master fingerprint; on failure raise HTTP 500. -/
def complete_multipart_upload_process (s : BackendState) (fid uploadId : String)
    (parts : List PartInfo) (outcome : CompletionOutcome) :
    Except HttpError (BackendState × Bool) :=
  if parts = [] then .ok (s, false)
  else
    let _sortedParts := parts.insertionSort (fun a b => a.PartNumber ≤ b.PartNumber)
    match outcome with
    | .fail => .error ⟨500⟩
    | .ok completeEtag =>
      let s1 : BackendState :=
        (filesLookup s.files fid).elim s (fun fm =>
          ⟨saveFileRec s.files
            ⟨fm.file_id, fm.file_type, fm.file_path, fm.file_name, fm.file_hash,
             fm.folder_id, fm.upload_id, some completeEtag,
             fm.master_file_fingerprint⟩,
           s.chunks,
           s.uploads.filter (fun u => !(u.1 == fid && u.2 == uploadId))⟩)
      .ok (update_master_file_fingerprint s1 fid, true)

/-- `api.py:confirm_chunks`.  Besides the HTTP result and the final state,
the third component records whether multipart completion was invoked. -/
def confirm_chunks (s : BackendState) (fid : String) (chunk_ids : List String)
    (chunk_etags : List ChunkETagInfo) (outcome : CompletionOutcome) (now : Nat) :
    Except HttpError ConfirmResponse × BackendState × Bool :=
  (filesLookup s.files fid).elim (.error ⟨404⟩, s, false) (fun fm =>
    fm.upload_id.elim (.error ⟨400⟩, s, false) (fun uid =>
      let etag_map := process_etag_info chunk_etags
      let chunk_map := get_chunks_for_file s.chunks fid
      let pc := process_chunks chunk_map fid now etag_map chunk_ids s.chunks
      let s1 : BackendState := ⟨s.files, pc.1, s.uploads⟩
      let confirmed := pc.2.1
      let parts := pc.2.2
      let mkResp := fun (s2 : BackendState) =>
        let master :=
          if fm.master_file_fingerprint = none ∧ 0 < confirmed
          then calculate_master_file_fingerprint s2.chunks fid
          else fm.master_file_fingerprint
        ((Except.ok (⟨fid, confirmed, confirmed == chunk_ids.length, master⟩ :
            ConfirmResponse) : Except HttpError ConfirmResponse), s2)
      if parts = [] then
        let r := mkResp s1
        (r.1, r.2, false)
      else
        match complete_multipart_upload_process s1 fid uid parts outcome with
        | .error e => (.error e, s1, true)
        | .ok su =>
          let r := mkResp su.1
          (r.1, r.2, true)))

/-- The `success` flag of a confirm result, when the request did not error. -/
def respSuccess : Except HttpError ConfirmResponse → Option Bool
  | .ok r => some r.success
  | .error _ => none

/-- `utils/files.py:cleanup_file_resources`: delete the file record if it
exists, and abort the multipart upload recorded on it, if any. -/
def cleanup_file_resources (s : BackendState) (fid : String) : BackendState :=
  (filesLookup s.files fid).elim s (fun fm =>
    let s1 : BackendState :=
      ⟨s.files.filter (fun f => !(f.file_id == fid)), s.chunks, s.uploads⟩
    fm.upload_id.elim s1 (fun uid =>
      ⟨s1.files, s1.chunks,
       s1.uploads.filter (fun u => !(u.1 == fid && u.2 == uid))⟩))

structure FileMetaRequest where
  file_id : String
  file_name : String
  file_path : String
  file_type : String
  folder_id : String
  chunk_count : Nat
  file_hash : Option String
deriving Repr, DecidableEq

structure PresignedUrlEntry where
  chunk_id : String
  presigned_url : String
deriving Repr, DecidableEq

structure FileMetaResponse where
  file_id : String
  presigned_urls : List PresignedUrlEntry
deriving Repr, DecidableEq

/-- Where a `create_file` run fails.  `atMetadataSave`: storing the file
record raises (nothing stored).  `atInitiate`: `create_multipart_upload`
raises (no upload opened).  `atPresign`: presigning a part URL (or persisting
the upload id) raises after the upload was initiated but before `upload_id`
was saved on the record.  `atChunkEntries`: `create_chunk_entries` raises
after `upload_id` was persisted. -/
inductive CreateFailure where
  | noFailure
  | atMetadataSave
  | atInitiate
  | atPresign
  | atChunkEntries
deriving Repr, DecidableEq

/-- `api.py:create_file`: store the file record, initiate a multipart upload,
presign part URLs and persist `upload_id`, create one unsynced chunk row per
part; on any failure run `cleanup_file_resources` and return HTTP 500. -/
def create_file (s : BackendState) (req : FileMetaRequest) (uploadId : String)
    (fail : CreateFailure) (now : Nat) :
    Except HttpError FileMetaResponse × BackendState :=
  let fid := req.file_id
  if fail = .atMetadataSave then
    (.error ⟨500⟩, cleanup_file_resources s fid)
  else
    let fileRec : FileRec :=
      ⟨fid, req.file_type, req.file_path, req.file_name, req.file_hash,
       req.folder_id, none, none, none⟩
    let s1 : BackendState := ⟨saveFileRec s.files fileRec, s.chunks, s.uploads⟩
    if fail = .atInitiate then
      (.error ⟨500⟩, cleanup_file_resources s1 fid)
    else
      let s2 : BackendState := ⟨s1.files, s1.chunks, s1.uploads ++ [(fid, uploadId)]⟩
      if fail = .atPresign then
        (.error ⟨500⟩, cleanup_file_resources s2 fid)
      else
        let withUpload : FileRec :=
          ⟨fid, req.file_type, req.file_path, req.file_name, req.file_hash,
           req.folder_id, some uploadId, none, none⟩
        let s3 : BackendState := ⟨saveFileRec s2.files withUpload, s2.chunks, s2.uploads⟩
        if fail = .atChunkEntries then
          (.error ⟨500⟩, cleanup_file_resources s3 fid)
        else
          let s4 : BackendState :=
            ⟨s3.files,
             (List.range req.chunk_count).foldl (fun t i =>
               saveChunk t ⟨fid ++ "_" ++ toString i, fid, i + 1, now, none, "", none⟩)
               s3.chunks,
             s3.uploads⟩
          (.ok ⟨fid, (List.range req.chunk_count).map (fun i =>
            ⟨fid ++ "_" ++ toString i,
             "presigned-put:" ++ fid ++ ":" ++ toString (i + 1)⟩)⟩, s4)

/-- C1: under a valid file with an open upload, `confirm_chunks` invokes
multipart completion exactly when the accumulated parts list is non-empty
(even if not every requested chunk was confirmed); every non-error response
carries `success = (confirmed_chunks == len(chunk_ids))` with
`confirmed_chunks` the processed count; and there is a run (three requested
chunks, two confirmed) where completion succeeds while `success` is false. -/
theorem confirm_completion_invoked_and_success_flag (s : BackendState)
    (fid : String) (chunk_ids : List String) (chunk_etags : List ChunkETagInfo)
    (outcome : CompletionOutcome) (now : Nat) (fm : FileRec) (uid : String)
    (hfm : filesLookup s.files fid = some fm)
    (huid : fm.upload_id = some uid) :
    ((confirm_chunks s fid chunk_ids chunk_etags outcome now).2.2 = true ↔
      (process_chunks (get_chunks_for_file s.chunks fid) fid now
        (process_etag_info chunk_etags) chunk_ids s.chunks).2.2 ≠ []) ∧
    (∀ r, (confirm_chunks s fid chunk_ids chunk_etags outcome now).1 = .ok r →
      r.success = (r.confirmed_chunks == chunk_ids.length) ∧
      r.confirmed_chunks = (process_chunks (get_chunks_for_file s.chunks fid)
        fid now (process_etag_info chunk_etags) chunk_ids s.chunks).2.1) ∧
    (respSuccess (confirm_chunks
        ⟨[⟨"f", "txt", "/p", "n", none, "root", some "U", none, none⟩],
         [⟨"c1", "f", 1, 0, none, "", none⟩, ⟨"c2", "f", 2, 0, none, "", none⟩,
          ⟨"c3", "f", 3, 0, none, "", none⟩],
         [("f", "U")]⟩
        "f" ["c1", "c2", "c3"] [⟨"c1", 1, "e1", "fp1"⟩, ⟨"c2", 2, "e2", "fp2"⟩]
        (.ok "E") 7).1 = some false ∧
     (confirm_chunks
        ⟨[⟨"f", "txt", "/p", "n", none, "root", some "U", none, none⟩],
         [⟨"c1", "f", 1, 0, none, "", none⟩, ⟨"c2", "f", 2, 0, none, "", none⟩,
          ⟨"c3", "f", 3, 0, none, "", none⟩],
         [("f", "U")]⟩
        "f" ["c1", "c2", "c3"] [⟨"c1", 1, "e1", "fp1"⟩, ⟨"c2", 2, "e2", "fp2"⟩]
        (.ok "E") 7).2.2 = true) := by
  refine ⟨?_, ?_, rfl, rfl⟩
  · simp only [confirm_chunks, hfm, huid, Option.elim_some]
    by_cases hp : (process_chunks (get_chunks_for_file s.chunks fid) fid now
        (process_etag_info chunk_etags) chunk_ids s.chunks).2.2 = []
    · rw [if_pos hp]
      simp [hp]
    · rw [if_neg hp]
      simp only [complete_multipart_upload_process, if_neg hp]
      cases outcome with
      | fail => simp [hp]
      | ok e => simp [hp]
  · intro r hr
    simp only [confirm_chunks, hfm, huid, Option.elim_some] at hr
    by_cases hp : (process_chunks (get_chunks_for_file s.chunks fid) fid now
        (process_etag_info chunk_etags) chunk_ids s.chunks).2.2 = []
    · rw [if_pos hp] at hr
      simp only [Except.ok.injEq] at hr
      subst hr
      exact ⟨rfl, rfl⟩
    · rw [if_neg hp] at hr
      simp only [complete_multipart_upload_process, if_neg hp] at hr
      cases outcome with
      | fail => simp at hr
      | ok e =>
        simp only [Except.ok.injEq] at hr
        subst hr
        exact ⟨rfl, rfl⟩

/-- Witness for C1: the two-of-three-chunks run, completion succeeding. -/
theorem confirm_completion_invoked_and_success_flag_witness :
    ((confirm_chunks
        ⟨[⟨"f", "txt", "/p", "n", none, "root", some "U", none, none⟩],
         [⟨"c1", "f", 1, 0, none, "", none⟩, ⟨"c2", "f", 2, 0, none, "", none⟩,
          ⟨"c3", "f", 3, 0, none, "", none⟩],
         [("f", "U")]⟩
        "f" ["c1", "c2", "c3"] [⟨"c1", 1, "e1", "fp1"⟩, ⟨"c2", 2, "e2", "fp2"⟩]
        (.ok "E") 7).2.2 = true ↔
      (process_chunks (get_chunks_for_file
          [⟨"c1", "f", 1, 0, none, "", none⟩, ⟨"c2", "f", 2, 0, none, "", none⟩,
           ⟨"c3", "f", 3, 0, none, "", none⟩] "f") "f" 7
        (process_etag_info [⟨"c1", 1, "e1", "fp1"⟩, ⟨"c2", 2, "e2", "fp2"⟩])
        ["c1", "c2", "c3"]
        [⟨"c1", "f", 1, 0, none, "", none⟩, ⟨"c2", "f", 2, 0, none, "", none⟩,
         ⟨"c3", "f", 3, 0, none, "", none⟩]).2.2 ≠ []) ∧
    (∀ r, (confirm_chunks
        ⟨[⟨"f", "txt", "/p", "n", none, "root", some "U", none, none⟩],
         [⟨"c1", "f", 1, 0, none, "", none⟩, ⟨"c2", "f", 2, 0, none, "", none⟩,
          ⟨"c3", "f", 3, 0, none, "", none⟩],
         [("f", "U")]⟩
        "f" ["c1", "c2", "c3"] [⟨"c1", 1, "e1", "fp1"⟩, ⟨"c2", 2, "e2", "fp2"⟩]
        (.ok "E") 7).1 = .ok r →
      r.success = (r.confirmed_chunks == ["c1", "c2", "c3"].length) ∧
      r.confirmed_chunks = (process_chunks (get_chunks_for_file
          [⟨"c1", "f", 1, 0, none, "", none⟩, ⟨"c2", "f", 2, 0, none, "", none⟩,
           ⟨"c3", "f", 3, 0, none, "", none⟩] "f") "f" 7
        (process_etag_info [⟨"c1", 1, "e1", "fp1"⟩, ⟨"c2", 2, "e2", "fp2"⟩])
        ["c1", "c2", "c3"]
        [⟨"c1", "f", 1, 0, none, "", none⟩, ⟨"c2", "f", 2, 0, none, "", none⟩,
         ⟨"c3", "f", 3, 0, none, "", none⟩]).2.1) ∧
    (respSuccess (confirm_chunks
        ⟨[⟨"f", "txt", "/p", "n", none, "root", some "U", none, none⟩],
         [⟨"c1", "f", 1, 0, none, "", none⟩, ⟨"c2", "f", 2, 0, none, "", none⟩,
          ⟨"c3", "f", 3, 0, none, "", none⟩],
         [("f", "U")]⟩
        "f" ["c1", "c2", "c3"] [⟨"c1", 1, "e1", "fp1"⟩, ⟨"c2", 2, "e2", "fp2"⟩]
        (.ok "E") 7).1 = some false ∧
     (confirm_chunks
        ⟨[⟨"f", "txt", "/p", "n", none, "root", some "U", none, none⟩],
         [⟨"c1", "f", 1, 0, none, "", none⟩, ⟨"c2", "f", 2, 0, none, "", none⟩,
          ⟨"c3", "f", 3, 0, none, "", none⟩],
         [("f", "U")]⟩
        "f" ["c1", "c2", "c3"] [⟨"c1", 1, "e1", "fp1"⟩, ⟨"c2", 2, "e2", "fp2"⟩]
        (.ok "E") 7).2.2 = true) :=
  confirm_completion_invoked_and_success_flag
    ⟨[⟨"f", "txt", "/p", "n", none, "root", some "U", none, none⟩],
     [⟨"c1", "f", 1, 0, none, "", none⟩, ⟨"c2", "f", 2, 0, none, "", none⟩,
      ⟨"c3", "f", 3, 0, none, "", none⟩],
     [("f", "U")]⟩
    "f" ["c1", "c2", "c3"] [⟨"c1", 1, "e1", "fp1"⟩, ⟨"c2", 2, "e2", "fp2"⟩]
    (.ok "E") 7
    ⟨"f", "txt", "/p", "n", none, "root", some "U", none, none⟩ "U" rfl rfl

/-- C10: when multipart completion raises after chunks were processed,
`confirm_chunks` returns HTTP 500, yet the final state keeps exactly the
chunk table written by `process_chunks` — the per-chunk `etag`, `fingerprint`
and `last_synced` saves are not rolled back (files and uploads untouched). -/
theorem confirm_completion_failure_persists (s : BackendState) (fid : String)
    (chunk_ids : List String) (chunk_etags : List ChunkETagInfo) (now : Nat)
    (fm : FileRec) (uid : String)
    (hfm : filesLookup s.files fid = some fm)
    (huid : fm.upload_id = some uid)
    (hparts : (process_chunks (get_chunks_for_file s.chunks fid) fid now
      (process_etag_info chunk_etags) chunk_ids s.chunks).2.2 ≠ []) :
    (confirm_chunks s fid chunk_ids chunk_etags .fail now).1 = .error ⟨500⟩ ∧
    (confirm_chunks s fid chunk_ids chunk_etags .fail now).2.1 =
      ⟨s.files, (process_chunks (get_chunks_for_file s.chunks fid) fid now
        (process_etag_info chunk_etags) chunk_ids s.chunks).1, s.uploads⟩ := by
  simp only [confirm_chunks, hfm, huid, Option.elim_some]
  rw [if_neg hparts]
  simp only [complete_multipart_upload_process, if_neg hparts]
  exact ⟨trivial, trivial⟩

/-- Witness for C10: a one-chunk confirm whose completion fails; the chunk
row keeps the saved etag, fingerprint and `last_synced` while the endpoint
reports HTTP 500. -/
theorem confirm_completion_failure_persists_witness :
    ((confirm_chunks
        ⟨[⟨"f", "txt", "/p", "n", none, "root", some "U", none, none⟩],
         [⟨"c1", "f", 1, 0, none, "", none⟩], [("f", "U")]⟩
        "f" ["c1"] [⟨"c1", 1, "e1", "fp1"⟩] .fail 7).1 = .error ⟨500⟩ ∧
     (confirm_chunks
        ⟨[⟨"f", "txt", "/p", "n", none, "root", some "U", none, none⟩],
         [⟨"c1", "f", 1, 0, none, "", none⟩], [("f", "U")]⟩
        "f" ["c1"] [⟨"c1", 1, "e1", "fp1"⟩] .fail 7).2.1 =
      ⟨[⟨"f", "txt", "/p", "n", none, "root", some "U", none, none⟩],
       (process_chunks (get_chunks_for_file [⟨"c1", "f", 1, 0, none, "", none⟩] "f")
         "f" 7 (process_etag_info [⟨"c1", 1, "e1", "fp1"⟩]) ["c1"]
         [⟨"c1", "f", 1, 0, none, "", none⟩]).1,
       [("f", "U")]⟩) ∧
    (confirm_chunks
        ⟨[⟨"f", "txt", "/p", "n", none, "root", some "U", none, none⟩],
         [⟨"c1", "f", 1, 0, none, "", none⟩], [("f", "U")]⟩
        "f" ["c1"] [⟨"c1", 1, "e1", "fp1"⟩] .fail 7).2.1.chunks =
      [⟨"c1", "f", 1, 0, some 7, "fp1", some "e1"⟩] :=
  ⟨confirm_completion_failure_persists
    ⟨[⟨"f", "txt", "/p", "n", none, "root", some "U", none, none⟩],
     [⟨"c1", "f", 1, 0, none, "", none⟩], [("f", "U")]⟩
    "f" ["c1"] [⟨"c1", 1, "e1", "fp1"⟩] 7
    ⟨"f", "txt", "/p", "n", none, "root", some "U", none, none⟩ "U"
    rfl rfl (by decide), by decide⟩

theorem saveFileRec_fresh (files : List FileRec) (f : FileRec)
    (h : ∀ x ∈ files, x.file_id ≠ f.file_id) :
    saveFileRec files f = files ++ [f] := by
  unfold saveFileRec
  rw [if_neg]
  simp only [List.any_eq_true, beq_iff_eq, not_exists]
  intro x
  rintro ⟨hx, he⟩
  exact h x hx he

theorem saveFileRec_replace_last (files : List FileRec) (f g : FileRec)
    (hid : g.file_id = f.file_id)
    (h : ∀ x ∈ files, x.file_id ≠ f.file_id) :
    saveFileRec (files ++ [f]) g = files ++ [g] := by
  unfold saveFileRec
  rw [if_pos]
  · rw [List.map_append]
    congr 1
    · apply List.map_congr_left ?_ |>.trans (List.map_id files)
      intro x hx
      have : x.file_id ≠ g.file_id := hid ▸ h x hx
      simp [this]
    · simp [hid]
  · simp only [List.any_eq_true]
    exact ⟨f, by simp [hid]⟩

theorem filesLookup_fresh_append (files : List FileRec) (f : FileRec)
    (h : ∀ x ∈ files, x.file_id ≠ f.file_id) :
    filesLookup (files ++ [f]) f.file_id = some f := by
  unfold filesLookup
  rw [List.find?_append]
  have h1 : files.find? (fun x => x.file_id == f.file_id) = none := by
    rw [List.find?_eq_none]
    intro x hx
    simp [h x hx]
  rw [h1]
  simp

theorem filesLookup_fresh_none (files : List FileRec) (fid : String)
    (h : ∀ x ∈ files, x.file_id ≠ fid) :
    filesLookup files fid = none := by
  unfold filesLookup
  rw [List.find?_eq_none]
  intro x hx
  simp [h x hx]

/-- C2 counterexample: a `create_file` run failing during presigning (after
the multipart upload was initiated, before `upload_id` was persisted) leaves
the initiated upload open at the object store — the File record is deleted
but the upload is not aborted, contradicting the claim that on any
post-creation failure no orphaned upload remains. -/
theorem create_file_presign_orphan_counterexample :
    (create_file ⟨[], [], []⟩ ⟨"f", "n", "/p", "txt", "root", 2, none⟩ "U"
        CreateFailure.atPresign 0).1 = .error ⟨500⟩ ∧
    (create_file ⟨[], [], []⟩ ⟨"f", "n", "/p", "txt", "root", 2, none⟩ "U"
        CreateFailure.atPresign 0).2 = ⟨[], [], [("f", "U")]⟩ :=
  ⟨rfl, rfl⟩

/-- C2 (amended): starting from a state holding no record or upload for the
new file id, every failing `create_file` run deletes the partial File record
before the error propagates; the initiated multipart upload is also aborted
when the failure happens at chunk-entry creation (after `upload_id` was
persisted), but a failure during presigning — after initiation, before
`upload_id` was persisted — leaves the initiated upload un-aborted. -/
theorem create_file_rollback_amended (s : BackendState) (req : FileMetaRequest)
    (uploadId : String) (now : Nat)
    (hnofile : ∀ f ∈ s.files, f.file_id ≠ req.file_id)
    (hnoupl : ∀ u ∈ s.uploads, u.1 ≠ req.file_id) :
    (∀ fail, fail ≠ CreateFailure.noFailure →
      ∀ f ∈ (create_file s req uploadId fail now).2.files,
        f.file_id ≠ req.file_id) ∧
    (∀ u ∈ (create_file s req uploadId CreateFailure.atChunkEntries now).2.uploads,
      u.1 ≠ req.file_id) ∧
    (∀ u ∈ (create_file s req uploadId CreateFailure.atInitiate now).2.uploads,
      u.1 ≠ req.file_id) ∧
    (∀ u ∈ (create_file s req uploadId CreateFailure.atMetadataSave now).2.uploads,
      u.1 ≠ req.file_id) ∧
    ((create_file s req uploadId CreateFailure.atPresign now).2.uploads =
      s.uploads ++ [(req.file_id, uploadId)]) := by
  have hrec : (⟨req.file_id, req.file_type, req.file_path, req.file_name,
      req.file_hash, req.folder_id, none, none, none⟩ : FileRec).file_id
      = req.file_id := rfl
  have hsave1 : saveFileRec s.files
      ⟨req.file_id, req.file_type, req.file_path, req.file_name,
       req.file_hash, req.folder_id, none, none, none⟩ =
      s.files ++ [⟨req.file_id, req.file_type, req.file_path, req.file_name,
       req.file_hash, req.folder_id, none, none, none⟩] :=
    saveFileRec_fresh _ _ (fun x hx => hrec ▸ hnofile x hx)
  have hsave2 : saveFileRec (s.files ++
      [⟨req.file_id, req.file_type, req.file_path, req.file_name,
        req.file_hash, req.folder_id, none, none, none⟩])
      ⟨req.file_id, req.file_type, req.file_path, req.file_name,
       req.file_hash, req.folder_id, some uploadId, none, none⟩ =
      s.files ++ [⟨req.file_id, req.file_type, req.file_path, req.file_name,
       req.file_hash, req.folder_id, some uploadId, none, none⟩] :=
    saveFileRec_replace_last _ _ _ rfl (fun x hx => hnofile x hx)
  have hlook1 : filesLookup (s.files ++
      [⟨req.file_id, req.file_type, req.file_path, req.file_name,
        req.file_hash, req.folder_id, none, none, none⟩]) req.file_id =
      some ⟨req.file_id, req.file_type, req.file_path, req.file_name,
        req.file_hash, req.folder_id, none, none, none⟩ :=
    filesLookup_fresh_append _ _ (fun x hx => hnofile x hx)
  have hlook2 : filesLookup (s.files ++
      [⟨req.file_id, req.file_type, req.file_path, req.file_name,
        req.file_hash, req.folder_id, some uploadId, none, none⟩]) req.file_id =
      some ⟨req.file_id, req.file_type, req.file_path, req.file_name,
        req.file_hash, req.folder_id, some uploadId, none, none⟩ :=
    filesLookup_fresh_append _ _ (fun x hx => hnofile x hx)
  have hlook0 : filesLookup s.files req.file_id = none :=
    filesLookup_fresh_none _ _ hnofile
  have hfilesClean : ∀ st : List FileRec,
      ∀ f ∈ st.filter (fun x => !(x.file_id == req.file_id)),
        f.file_id ≠ req.file_id := by
    intro st f hf
    have := (List.mem_filter.1 hf).2
    simpa using this
  have hmeta : (create_file s req uploadId CreateFailure.atMetadataSave now).2
      = s := by
    simp only [create_file, if_true, if_false, cleanup_file_resources, hlook0,
      Option.elim_none]
  have hinit : (create_file s req uploadId CreateFailure.atInitiate now).2
      = (⟨(s.files ++ [(⟨req.file_id, req.file_type, req.file_path, req.file_name,
          req.file_hash, req.folder_id, none, none, none⟩ : FileRec)]).filter
            (fun x => !(x.file_id == req.file_id)),
         s.chunks, s.uploads⟩ : BackendState) := by
    simp only [create_file, if_true, if_false, hsave1, cleanup_file_resources,
      hlook1, Option.elim_some, Option.elim_none]
    rw [if_neg (by decide)]
  have hpre : (create_file s req uploadId CreateFailure.atPresign now).2
      = (⟨(s.files ++ [(⟨req.file_id, req.file_type, req.file_path, req.file_name,
          req.file_hash, req.folder_id, none, none, none⟩ : FileRec)]).filter
            (fun x => !(x.file_id == req.file_id)),
         s.chunks, s.uploads ++ [(req.file_id, uploadId)]⟩ : BackendState) := by
    simp only [create_file, if_true, if_false, hsave1, cleanup_file_resources,
      hlook1, Option.elim_some, Option.elim_none]
    rw [if_neg (by decide), if_neg (by decide)]
  have hchunk : (create_file s req uploadId CreateFailure.atChunkEntries now).2
      = (⟨(s.files ++ [(⟨req.file_id, req.file_type, req.file_path, req.file_name,
          req.file_hash, req.folder_id, some uploadId, none, none⟩ : FileRec)]).filter
            (fun x => !(x.file_id == req.file_id)),
         s.chunks,
         (s.uploads ++ [(req.file_id, uploadId)]).filter
           (fun u => !(u.1 == req.file_id && u.2 == uploadId))⟩ : BackendState) := by
    simp only [create_file, if_true, if_false, hsave1, hsave2,
      cleanup_file_resources, hlook2, Option.elim_some]
    rw [if_neg (by decide), if_neg (by decide), if_neg (by decide)]
  refine ⟨?_, ?_, ?_, ?_, ?_⟩
  · intro fail hfail f hf
    cases fail with
    | noFailure => exact absurd rfl hfail
    | atMetadataSave =>
      rw [hmeta] at hf
      exact hnofile f hf
    | atInitiate =>
      rw [hinit] at hf
      exact hfilesClean _ f hf
    | atPresign =>
      rw [hpre] at hf
      exact hfilesClean _ f hf
    | atChunkEntries =>
      rw [hchunk] at hf
      exact hfilesClean _ f hf
  · intro u hu
    rw [hchunk] at hu
    rcases List.mem_filter.1 hu with ⟨hmem, hpred⟩
    rcases List.mem_append.1 hmem with h | h
    · exact hnoupl u h
    · rcases List.mem_singleton.1 h with rfl
      simp at hpred
  · intro u hu
    rw [hinit] at hu
    exact hnoupl u hu
  · intro u hu
    rw [hmeta] at hu
    exact hnoupl u hu
  · rw [hpre]

/-- Witness for C2 (amended) at the empty initial state. -/
theorem create_file_rollback_amended_witness :
    (∀ fail, fail ≠ CreateFailure.noFailure →
      ∀ f ∈ (create_file ⟨[], [], []⟩ ⟨"f", "n", "/p", "txt", "root", 2, none⟩
          "U" fail 0).2.files, f.file_id ≠ "f") ∧
    (∀ u ∈ (create_file ⟨[], [], []⟩ ⟨"f", "n", "/p", "txt", "root", 2, none⟩
        "U" CreateFailure.atChunkEntries 0).2.uploads, u.1 ≠ "f") ∧
    (∀ u ∈ (create_file ⟨[], [], []⟩ ⟨"f", "n", "/p", "txt", "root", 2, none⟩
        "U" CreateFailure.atInitiate 0).2.uploads, u.1 ≠ "f") ∧
    (∀ u ∈ (create_file ⟨[], [], []⟩ ⟨"f", "n", "/p", "txt", "root", 2, none⟩
        "U" CreateFailure.atMetadataSave 0).2.uploads, u.1 ≠ "f") ∧
    ((create_file ⟨[], [], []⟩ ⟨"f", "n", "/p", "txt", "root", 2, none⟩
        "U" CreateFailure.atPresign 0).2.uploads = [] ++ [("f", "U")]) :=
  create_file_rollback_amended ⟨[], [], []⟩ ⟨"f", "n", "/p", "txt", "root", 2, none⟩
    "U" 0 (by simp) (by simp)

end Firebox
